/-
  Verification of the FeedWise processing pipeline (feedwise/core/processor.py,
  feedwise/fetcher/detector.py, feedwise/api/process.py, feedwise/main.py)
  against its natural-language specification.

  The Python code is shallowly embedded: strings are Lean `String`s (lists of
  unicode code points, matching Python's code-point semantics for `len` and
  slicing), database rows are fields of explicit state records, and every
  `await`ed external call (full-text extractor, LLM analyzer) is an oracle
  supplied as input.  Exceptions raised by external calls are modelled as
  `Except` error results threaded to the caller.
-/
import Mathlib

set_option maxRecDepth 20000

namespace FeedWise

/-! ## String helpers mirroring the Python primitives used by the code -/

/-- Python `str.strip()` whitespace test (ASCII whitespace, which is all the
code at hand can encounter in the stripped positions). -/
def pyIsSpace (c : Char) : Bool :=
  c == ' ' || c == '\t' || c == '\n' || c == '\r' || c == Char.ofNat 11 || c == Char.ofNat 12

/-- Python `str.strip()` on a list of characters: drop whitespace from both ends. -/
def pyStrip (s : List Char) : List Char :=
  ((s.dropWhile pyIsSpace).reverse.dropWhile pyIsSpace).reverse

/-- Python `str.lower()`.  `Char.toLower` lowercases ASCII letters and leaves
other characters (CJK, ellipsis) unchanged, which agrees with Python on every
character the detector's markers and inputs contain. -/
def pyLower (s : List Char) : List Char := s.map Char.toLower

/-- Python `needle in hay` substring test on character lists. -/
def containsSub (needle hay : List Char) : Bool :=
  hay.tails.any (fun t => needle.isPrefixOf t)

/-- Python `needle in hay` on strings. -/
def strContains (hay needle : String) : Bool := containsSub needle.data hay.data

/-- Python `x or y` for an optional string `x` and default `y`:
`None` and `""` are falsy. -/
def pyOrSO (x : Option String) (y : String) : String :=
  match x with
  | some s => if s = "" then y else s
  | none => y

/-- Python truthiness of an optional string (`None` and `""` are falsy). -/
def pyTruthy (x : Option String) : Bool :=
  match x with
  | some s => s != ""
  | none => false

/-- Python `content.split("\n\n")`: split on each non-overlapping occurrence of
a blank line, scanning left to right. -/
def splitBlank : List Char → List (List Char)
  | '\n' :: '\n' :: rest => [] :: splitBlank rest
  | c :: rest =>
    match splitBlank rest with
    | [] => [[c]]
    | p :: ps => (c :: p) :: ps
  | [] => [[]]

/-! ## ContentDetector (fetcher/detector.py) -/

namespace ContentDetector

/-- Constant `ContentDetector.TRUNCATION_MARKERS`. -/
def TRUNCATION_MARKERS : List String :=
  ["...", "…", "Read more", "Continue reading", "Read the full article",
   "Click to read more", "阅读更多", "查看全文", "点击阅读", "继续阅读",
   "展开全文", "[...]", "[…]"]

/-- Constant `ContentDetector.MIN_CONTENT_LENGTH`. -/
def MIN_CONTENT_LENGTH : Nat := 500

/-- Predicate `ContentDetector.needs_full_content(title, content)` from
fetcher/detector.py lines 29-61, rule by rule in source order. -/
def needs_full_content (title content : String) : Bool :=
  if content.data.isEmpty then true
  else
    let c := pyStrip content.data
    if c.length < MIN_CONTENT_LENGTH then true
    else
      let tail := if c.length > 100 then pyLower (c.drop (c.length - 100)) else pyLower c
      if TRUNCATION_MARKERS.any (fun m => containsSub (pyLower m.data) tail) then true
      else if 50 < title.length ∧ c.length < 300 then true
      else
        let paragraphs := ((splitBlank c).map pyStrip).filter (fun p => !p.isEmpty)
        decide (paragraphs.length ≤ 2) && decide (c.length < 800)

end ContentDetector

/-! ## Data model (models/article.py, models/feed.py, models/analysis.py)

`datetime` columns (`published_at`, `fetched_at`, `analyzed_at`,
`started_at`) are wall-clock metadata never consulted by the pipeline logic
and are omitted. -/

/-- Row type `Article` (models/article.py).  `full_content_html` is written by
`ProcessEngine._do_fetch` as a dynamic attribute even though the model does
not declare a column for it; it is carried here so the assignment can be
embedded. -/
structure Article where
  id : String
  feed_id : String
  title : String
  author : Option String := none
  url : Option String := none
  content : Option String := none
  content_text : Option String := none
  full_content : Option String := none
  full_content_html : Option String := none
  content_source : String := "feed"
  fetch_status : Option String := none
  process_status : String := "synced"
  process_error : Option String := none
  process_stage : Option String := none
  is_read : Bool := false
  is_starred : Bool := false
deriving DecidableEq, Repr

/-- Row type `Feed`, restricted to the fields the processor reads. -/
structure Feed where
  id : String
  title : String := ""
  fetch_full_text : String := "auto"
deriving DecidableEq, Repr

/-- Row type `ArticleAnalysis` (models/analysis.py).  The JSON serialization of
`key_points` and `tags` (`json.dumps`) is abstracted: the rows store the
lists themselves.  The float `value_score` is modelled over `ℚ`; no claim
performs arithmetic on it. -/
structure ArticleAnalysis where
  article_id : String
  summary : Option String := none
  key_points : Option (List String) := none
  value_score : Option ℚ := none
  reading_time : Option Int := none
  language : Option String := none
  tags : Option (List String) := none
  model_used : Option String := none
deriving DecidableEq, Repr

/-! ## Processor (core/processor.py) -/

/-! `ProcessStatus` constants (core/processor.py lines 29-38). -/
namespace ProcessStatus

def SYNCED : String := "synced"

def PENDING_FETCH : String := "pending_fetch"

def FETCHING : String := "fetching"

def PENDING_ANALYSIS : String := "pending_analysis"

def ANALYZING : String := "analyzing"

def DONE : String := "done"

def FAILED : String := "failed"

end ProcessStatus

/-- Record `ProcessProgress` (core/processor.py lines 54-64), minus `started_at`. -/
structure ProcessProgress where
  status : String := "idle"
  total : Nat := 0
  completed : Nat := 0
  failed : Nat := 0
  current_article : Option String := none
  current_stage : Option String := none
deriving DecidableEq, Repr

/-- The flag state of a `ProcessEngine` instance. -/
structure ProcessEngine where
  running : Bool := false
  paused : Bool := false
deriving DecidableEq, Repr

/-- Property `ProcessEngine.is_running`. -/
def ProcessEngine.is_running (e : ProcessEngine) : Bool := e.running && !e.paused

/-- Result type `FullTextResult` (fetcher/extractor.py). -/
structure FullTextResult where
  success : Bool
  content : Option String := none
  content_html : Option String := none
  word_count : Nat := 0
  error : Option String := none
deriving DecidableEq, Repr

/-- Structured result produced by `ArticleAnalyzer.analyze` (llm/analyzer.py). -/
structure AnalysisData where
  summary : String := ""
  key_points : List String := []
  value_score : ℚ := 0
  reading_time : Int := 0
  language : String := ""
  tags : List String := []
deriving DecidableEq, Repr

/-- Behaviour of one `await self._extractor.fetch(url)` call: either the
extractor returns a `FullTextResult`, or an unexpected exception escapes the
fetch step (e.g. a failed session commit). -/
inductive FetchOutcome where
  | value (r : FullTextResult)
  | exn (msg : String)
deriving DecidableEq, Repr

/-- Behaviour of the analysis stage's external work for one article: the
analyzer returns a result; or it raises inside `_do_analysis`'s guarded
`try` block (caught there and classified); or an unexpected exception
escapes the analysis step outside that block (e.g. `get_analysis_semaphore`
raising `ValueError` on a non-numeric `analysis_concurrency` setting, or the
trailing session commit failing). -/
inductive AnalysisOutcome where
  | value (r : AnalysisData)
  | raised (ename emsg : String)
  | exn (msg : String)
deriving DecidableEq, Repr

/-- The external collaborators of one pipeline run: the full-text extractor
(keyed by URL), the analysis stage's outcome (keyed by article id), the
feed table (`session.get(Feed, feed_id)`), and the model identifier recorded
on analysis rows. -/
structure PipelineEnv where
  fetch : String → FetchOutcome
  analysis : String → AnalysisOutcome
  feeds : String → Option Feed
  model_name : String := "model"

/-- Decision `ProcessEngine._should_fetch` (processor.py lines 376-388). -/
def should_fetch (a : Article) (feed : Option Feed) : Bool :=
  match feed with
  | some f =>
    if f.fetch_full_text = "always" then true
    else if f.fetch_full_text = "never" then false
    else ContentDetector.needs_full_content a.title (pyOrSO a.content_text "")
  | none => ContentDetector.needs_full_content a.title (pyOrSO a.content_text "")

/-- Step `ProcessEngine._do_fetch` (processor.py lines 313-374).  The `Except`
error case is an exception escaping the step; its payload carries the state
the article and progress had been committed with at that point. -/
def do_fetch (env : PipelineEnv) (a : Article) (p : ProcessProgress) :
    Except (String × Article × ProcessProgress) (Article × ProcessProgress) :=
  let p := { p with current_stage := some "fetch" }
  let a := { a with process_status := ProcessStatus.FETCHING }
  match a.url with
  | none =>
    .ok ({ a with process_status := ProcessStatus.PENDING_ANALYSIS,
                  fetch_status := some "skipped" }, p)
  | some url =>
    let feed := env.feeds a.feed_id
    if !(should_fetch a feed) then
      .ok ({ a with process_status := ProcessStatus.PENDING_ANALYSIS,
                    fetch_status := some "skipped" }, p)
    else
      match env.fetch url with
      | .exn msg => .error (msg, a, p)
      | .value r =>
        if r.success && pyTruthy r.content then
          .ok ({ a with full_content := r.content,
                        full_content_html :=
                          if pyTruthy r.content_html then r.content_html
                          else a.full_content_html,
                        content_source := "fetched",
                        fetch_status := some "success",
                        process_status := ProcessStatus.PENDING_ANALYSIS }, p)
        else
          .ok ({ a with fetch_status := some "failed",
                        process_status := ProcessStatus.FAILED,
                        process_stage := some "fetch",
                        process_error := some (pyOrSO r.error "未知错误") },
               { p with failed := p.failed + 1 })

/-- Error-message classification from `_do_analysis`'s exception handler
(processor.py lines 496-509). -/
def classify_analysis_error (ename emsg : String) : String :=
  if strContains ename "ConnectTimeout" || strContains ⟨pyLower emsg.data⟩ "timeout" then
    "连接超时 - Ollama 服务可能未响应"
  else if strContains ename "ConnectionError" || strContains ⟨pyLower emsg.data⟩ "connection" then
    "连接失败 - 无法连接到 LLM 服务"
  else if strContains ename "JSONDecodeError" || strContains ⟨pyLower emsg.data⟩ "json" then
    "JSON 解析失败 - LLM 返回格式错误"
  else ename ++ ": " ++ ⟨emsg.data.take 100⟩

/-- The field copy performed on an existing `ArticleAnalysis` row
(processor.py lines 459-468). -/
def update_analysis_row (r : AnalysisData) (model : String) (row : ArticleAnalysis) :
    ArticleAnalysis :=
  { row with summary := some r.summary,
             key_points := some r.key_points,
             value_score := some r.value_score,
             reading_time := some r.reading_time,
             language := some r.language,
             tags := some r.tags,
             model_used := some model }

/-- The existing-row check plus update-or-insert from `_do_analysis`
(processor.py lines 448-480): read the row whose `article_id` matches,
overwrite its fields if present, otherwise insert a fresh row. -/
def upsert_analysis (aid : String) (r : AnalysisData) (model : String)
    (rows : List ArticleAnalysis) : List ArticleAnalysis :=
  if rows.any (fun x => x.article_id == aid) then
    rows.map (fun x => if x.article_id == aid then update_analysis_row r model x else x)
  else
    rows ++ [{ article_id := aid,
               summary := some r.summary,
               key_points := some r.key_points,
               value_score := some r.value_score,
               reading_time := some r.reading_time,
               language := some r.language,
               tags := some r.tags,
               model_used := some model }]

/-- Step `ProcessEngine._do_analysis` (processor.py lines 390-529). -/
def do_analysis (env : PipelineEnv) (a : Article) (p : ProcessProgress)
    (rows : List ArticleAnalysis) :
    Except (String × Article × ProcessProgress × List ArticleAnalysis)
           (Article × ProcessProgress × List ArticleAnalysis) :=
  let p := { p with current_stage := some "analysis" }
  let a := { a with process_status := ProcessStatus.ANALYZING }
  let content := pyOrSO a.full_content (pyOrSO a.content_text "")
  if content = "" then
    .ok ({ a with process_status := ProcessStatus.DONE },
         { p with completed := p.completed + 1 }, rows)
  else
    match env.analysis a.id with
    | .exn msg => .error (msg, a, p, rows)
    | .raised ename emsg =>
      .ok ({ a with process_status := ProcessStatus.FAILED,
                    process_stage := some "analysis",
                    process_error := some (classify_analysis_error ename emsg) },
           { p with failed := p.failed + 1 }, rows)
    | .value r =>
      .ok ({ a with process_status := ProcessStatus.DONE },
           { p with completed := p.completed + 1 },
           upsert_analysis a.id r env.model_name rows)

/-- Step `ProcessEngine._process_one` (processor.py lines 275-311): run the due
stages, catching any exception at the per-article boundary; the handler
marks the article failed and records the raw message (and, notably, does not
set `process_stage`). -/
def process_one (env : PipelineEnv) (a : Article) (p : ProcessProgress)
    (rows : List ArticleAnalysis) :
    Article × ProcessProgress × List ArticleAnalysis :=
  let p := { p with current_article := some (a.title.take 50) }
  let step1 :=
    if a.process_status ∈ [ProcessStatus.SYNCED, ProcessStatus.PENDING_FETCH] then
      do_fetch env a p
    else .ok (a, p)
  match step1 with
  | .error (msg, a1, p1) =>
    ({ a1 with process_status := ProcessStatus.FAILED, process_error := some msg },
     { p1 with failed := p1.failed + 1 }, rows)
  | .ok (a1, p1) =>
    if a1.process_status = ProcessStatus.PENDING_ANALYSIS then
      match do_analysis env a1 p1 rows with
      | .error (msg, a2, p2, rows2) =>
        ({ a2 with process_status := ProcessStatus.FAILED, process_error := some msg },
         { p2 with failed := p2.failed + 1 }, rows2)
      | .ok (a2, p2, rows2) => (a2, p2, rows2)
    else (a1, p1, rows)

/-- The status filter of `_count_pending` and `_get_pending_articles`
(processor.py lines 241-273). -/
def pending_statuses : List String :=
  [ProcessStatus.SYNCED, ProcessStatus.PENDING_FETCH, ProcessStatus.PENDING_ANALYSIS]

/-- Whether an article is selected by the engine's eligibility query. -/
def is_pending (a : Article) : Bool := decide (a.process_status ∈ pending_statuses)

/-- Query `ProcessEngine._count_pending`. -/
def count_pending (arts : List Article) : Nat := (arts.filter is_pending).length

/-- Query `ProcessEngine._get_pending_articles`: the first `limit` eligible
articles in store order (the SQL query carries no ORDER BY; the list order
stands in for whatever order the store returns). -/
def get_pending_articles (arts : List Article) (limit : Nat) : List Article :=
  (arts.filter is_pending).take limit

/-- One iteration of the `for article in articles` loop over a fetched batch,
fused with the write-back of each processed article to the store: the first
`k` eligible articles in store order are processed in place (each row is
committed individually, and rows are independent).  Equivalent to
`_get_pending_articles` followed by per-row UPDATEs keyed by primary key. -/
def process_batch (env : PipelineEnv) :
    Nat → List Article → ProcessProgress → List ArticleAnalysis →
    List Article × ProcessProgress × List ArticleAnalysis
  | _, [], p, rows => ([], p, rows)
  | 0, arts, p, rows => (arts, p, rows)
  | k + 1, a :: rest, p, rows =>
    if is_pending a then
      match process_one env a p rows with
      | (a1, p1, rows1) =>
        match process_batch env k rest p1 rows1 with
        | (rest1, p2, rows2) => (a1 :: rest1, p2, rows2)
    else
      match process_batch env (k + 1) rest p rows with
      | (rest1, p1, rows1) => (a :: rest1, p1, rows1)

/-- Why `_run_loop` stopped looping. -/
inductive ExitReason where
  | ctrl
  | emptyBatch
deriving DecidableEq, Repr

/-- Loop body of `ProcessEngine._run_loop` (processor.py lines 215-227),
with the run-control flags held constant for the duration modelled (flag
changes come from concurrent control calls, outside a sequential model):
exit with `ctrl` when the `while self._running and not self._paused`
condition fails, with `emptyBatch` when the batch query comes back empty.
`fuel` bounds the number of iterations; `none` means the bound was hit. -/
def run_loop (env : PipelineEnv) (batch_size : Nat) (running paused : Bool) :
    Nat → List Article → ProcessProgress → List ArticleAnalysis →
    Option (List Article × ProcessProgress × List ArticleAnalysis × ExitReason)
  | 0, _, _, _ => none
  | fuel + 1, arts, p, rows =>
    if !running || paused then some (arts, p, rows, .ctrl)
    else if get_pending_articles arts batch_size = [] then
      some (arts, p, rows, .emptyBatch)
    else
      match process_batch env batch_size arts p rows with
      | (arts1, p1, rows1) => run_loop env batch_size running paused fuel arts1 p1 rows1

/-- Control `ProcessEngine.start` (processor.py lines 146-172): no-op if the engine's
run is active; otherwise raise the flags, reset the progress counters, set
`total` to the pending count (done at the top of `_run_loop`), run the loop,
and in the `finally` block drop back to idle.  The final `Bool` records
whether a run loop was actually executed. -/
def ProcessEngine.start (e : ProcessEngine) (env : PipelineEnv) (batch_size : Nat)
    (fuel : Nat) (arts : List Article) (p : ProcessProgress)
    (rows : List ArticleAnalysis) :
    Option (ProcessEngine × List Article × ProcessProgress × List ArticleAnalysis × Bool) :=
  if e.running then some (e, arts, p, rows, false)
  else
    let e1 : ProcessEngine := { running := true, paused := false }
    let p1 := { p with status := "running", completed := 0, failed := 0 }
    let p2 := { p1 with total := count_pending arts }
    match run_loop env batch_size e1.running e1.paused fuel arts p2 rows with
    | none => none
    | some (arts1, p3, rows1, _) =>
      some ({ e1 with running := false }, arts1,
            { p3 with status := "idle", current_article := none, current_stage := none },
            rows1, true)

/-- Control `ProcessEngine.pause` (processor.py lines 174-179). -/
def ProcessEngine.pause (e : ProcessEngine) (p : ProcessProgress) :
    ProcessEngine × ProcessProgress :=
  ({ e with paused := true }, { p with status := "paused" })

/-- Control `ProcessEngine.resume` (processor.py lines 181-186). -/
def ProcessEngine.resume (e : ProcessEngine) (p : ProcessProgress) :
    ProcessEngine × ProcessProgress :=
  ({ e with paused := false }, { p with status := "running" })

/-- Control `ProcessEngine.stop` (processor.py lines 188-192). -/
def ProcessEngine.stop (e : ProcessEngine) : ProcessEngine :=
  { e with running := false, paused := false }

/-- Per-article mutation of `reset_failed_to_pending` (processor.py lines
632-640): re-queue at the stage recorded in `process_stage`, clear error and
stage. -/
def reset_article (a : Article) : Article :=
  { a with process_status :=
             if a.process_stage = some "fetch" then ProcessStatus.PENDING_FETCH
             else ProcessStatus.PENDING_ANALYSIS,
           process_error := none,
           process_stage := none }

/-- Operation `reset_failed_to_pending` (processor.py lines 625-644): select the failed
articles, mutate each in place, return how many were touched. -/
def reset_failed_to_pending (arts : List Article) : List Article × Nat :=
  (arts.map (fun a =>
     if a.process_status = ProcessStatus.FAILED then reset_article a else a),
   arts.countP (fun a => a.process_status == ProcessStatus.FAILED))

/-! ## API layer (api/process.py) -/

/-- What the `POST /api/process/start` handler decides to do. -/
inductive StartAction where
  | alreadyRunning
  | startNewEngine
deriving DecidableEq, Repr

/-- Handler `start_processing` (api/process.py lines 56-70): reject when the
registered engine reports `is_running`, otherwise construct a fresh
`ProcessEngine` and schedule its `start` as a background task. -/
def start_processing (engine : Option ProcessEngine) : StartAction :=
  match engine with
  | some e => if e.is_running then .alreadyRunning else .startNewEngine
  | none => .startNewEngine

/-! ## Startup recovery (main.py) -/

/-- Row effect of the first UPDATE of `_reset_stuck_states`:
`analyzing -> pending_analysis`. -/
def rewind_analyzing (a : Article) : Article :=
  if a.process_status = ProcessStatus.ANALYZING then
    { a with process_status := ProcessStatus.PENDING_ANALYSIS }
  else a

/-- Row effect of the second UPDATE of `_reset_stuck_states`:
`fetching -> pending_fetch`. -/
def rewind_fetching (a : Article) : Article :=
  if a.process_status = ProcessStatus.FETCHING then
    { a with process_status := ProcessStatus.PENDING_FETCH }
  else a

/-- Recovery `_reset_stuck_states` (main.py lines 52-74): two sequential UPDATEs,
`analyzing -> pending_analysis` then `fetching -> pending_fetch`, each
reporting its row count. -/
def reset_stuck_states (arts : List Article) : List Article × Nat × Nat :=
  let analyzing_count := arts.countP (fun a => a.process_status == ProcessStatus.ANALYZING)
  let arts1 := arts.map rewind_analyzing
  let fetching_count := arts1.countP (fun a => a.process_status == ProcessStatus.FETCHING)
  let arts2 := arts1.map rewind_fetching
  (arts2, analyzing_count, fetching_count)

/-! ## Derived notions used by the claims -/

/-- The §3 data-model invariant: `process_stage` is non-null iff
`process_status == failed`. -/
def stage_consistent (a : Article) : Prop :=
  a.process_stage ≠ none ↔ a.process_status = ProcessStatus.FAILED

instance (a : Article) : Decidable (stage_consistent a) := by
  unfold stage_consistent; infer_instance

/-- The spec's description of startup recovery, stated as a pointwise map:
`analyzing` rewinds to `pending_analysis`, `fetching` to `pending_fetch`,
everything else is untouched.  Used to compare `reset_stuck_states` against
the spec's words. -/
def reset_stuck_spec (a : Article) : Article :=
  if a.process_status = ProcessStatus.ANALYZING then
    { a with process_status := ProcessStatus.PENDING_ANALYSIS }
  else if a.process_status = ProcessStatus.FETCHING then
    { a with process_status := ProcessStatus.PENDING_FETCH }
  else a

/-- Number of `ArticleAnalysis` rows stored for a given article id. -/
def analyses_count (rows : List ArticleAnalysis) (aid : String) : Nat :=
  rows.countP (fun x => x.article_id == aid)

/-- No unexpected exception escapes either stage while this article is
processed. -/
def no_step_exn (env : PipelineEnv) (a : Article) : Prop :=
  (∀ url msg, a.url = some url → env.fetch url ≠ .exn msg) ∧
  (∀ msg, env.analysis a.id ≠ .exn msg)

/-! ## Helper lemmas -/

/-- A suffix is found by the substring scan. -/
theorem containsSub_of_suffix {n h : List Char} (hs : n <:+ h) : containsSub n h = true := by
  unfold containsSub
  rw [List.any_eq_true]
  exact ⟨n, (List.mem_tails n h).2 hs, List.isPrefixOf_iff_prefix.2 (List.prefix_refl n)⟩

/-- If the input ends with a non-whitespace character, stripping it only
removes leading whitespace. -/
theorem pyStrip_eq_dropWhile {l : List Char} {c : Char}
    (hc : pyIsSpace c = false) (hs : [c] <:+ l) :
    pyStrip l = l.dropWhile pyIsSpace := by
  unfold pyStrip
  rcases List.suffix_or_suffix_of_suffix hs (List.dropWhile_suffix (l := l) pyIsSpace) with h | h
  · obtain ⟨t, ht⟩ := h
    rw [← ht, List.reverse_append]
    simp only [List.reverse_cons, List.reverse_nil, List.nil_append, List.singleton_append,
      List.dropWhile_cons, hc, Bool.false_eq_true, if_false]
    rw [List.reverse_reverse]
  · obtain ⟨t, ht⟩ := h
    rcases t with _ | ⟨x, xs⟩
    · simp only [List.nil_append] at ht
      rw [ht]
      simp [List.dropWhile_cons, hc]
    · simp only [List.cons_append, List.cons.injEq] at ht
      have hd0 : List.dropWhile pyIsSpace l = [] := (List.append_eq_nil.mp ht.2).2
      rw [hd0]
      simp

/-- If `"Read more"` is a suffix of the raw content and the stripped content
is long, it is still a suffix of the stripped content. -/
theorem readmore_suffix_strip {l : List Char} (hs : "Read more".data <:+ l)
    (hlen : 100 ≤ (pyStrip l).length) : "Read more".data <:+ pyStrip l := by
  have he : ['e'] <:+ "Read more".data := ⟨"Read mor".data, by decide⟩
  have h1 : pyStrip l = l.dropWhile pyIsSpace :=
    pyStrip_eq_dropWhile (by decide) (he.trans hs)
  rw [h1] at hlen ⊢
  rcases List.suffix_or_suffix_of_suffix hs (List.dropWhile_suffix (l := l) pyIsSpace) with h | h
  · exact h
  · exfalso
    have hle := h.length_le
    have h9 : ("Read more".data).length = 9 := by decide
    rw [h9] at hle
    omega

/-- If `"Read more"` is a suffix of a string of length at least 100, its
lowercase form occurs in the lowercased last-100-character window. -/
theorem readmore_in_tail {s : List Char} (hs : "Read more".data <:+ s)
    (hlen : 100 ≤ s.length) :
    containsSub (pyLower "Read more".data) (pyLower (s.drop (s.length - 100))) = true := by
  have hd : s.drop (s.length - 100) <:+ s := List.drop_suffix _ _
  rcases List.suffix_or_suffix_of_suffix hs hd with h | h
  · exact containsSub_of_suffix (List.IsSuffix.map Char.toLower h)
  · have h9 : (s.drop (s.length - 100)).length = 100 := by
      rw [List.length_drop]; omega
    have := h.length_le
    rw [h9] at this
    have : (100 : Nat) ≤ 9 := le_trans this (by decide)
    omega

end FeedWise

namespace FeedWise

/-! ## Claim C10 -/

/-- C10: `ContentDetector.needs_full_content` does not depend on the title:
for every content string and any two titles, the result is the same, because
the only title-sensitive rule (title longer than 50 and content shorter than
300) is preempted by the earlier rule returning true whenever the trimmed
content is shorter than 500 characters. -/
theorem needs_full_content_title_irrelevant (t1 t2 c : String) :
    ContentDetector.needs_full_content t1 c = ContentDetector.needs_full_content t2 c := by
  simp only [ContentDetector.needs_full_content]
  by_cases h0 : c.data.isEmpty
  · rw [if_pos h0, if_pos h0]
  · rw [if_neg h0, if_neg h0]
    by_cases h1 : (pyStrip c.data).length < ContentDetector.MIN_CONTENT_LENGTH
    · rw [if_pos h1, if_pos h1]
    · rw [if_neg h1, if_neg h1]
      by_cases h2 : (ContentDetector.TRUNCATION_MARKERS.any fun m =>
          containsSub (pyLower m.data)
            (if (pyStrip c.data).length > 100 then
              pyLower (List.drop ((pyStrip c.data).length - 100) (pyStrip c.data))
            else pyLower (pyStrip c.data))) = true
      · rw [if_pos h2, if_pos h2]
      · rw [if_neg h2, if_neg h2]
        have h300 : ¬ (pyStrip c.data).length < 300 := by
          simp only [ContentDetector.MIN_CONTENT_LENGTH] at h1
          omega
        rw [if_neg fun hand => h300 hand.2, if_neg fun hand => h300 hand.2]

/-! ## Claim C4 -/

/-- The 600-character single-paragraph content from the claim. -/
def c4_x600 : String := String.mk (List.replicate 600 'x')

/-- An 800-character single-paragraph content: the corrected false case. -/
def c4_x800 : String := String.mk (List.replicate 800 'x')

/-- C4 counterexample: the claim asserts
`needs_full_content("T", "x"*600) == false`, but the code returns `true`:
the final rule (at most 2 paragraphs and fewer than 800 characters) fires,
since `"x"*600` is one paragraph of 600 < 800 characters. -/
theorem c4_counterexample :
    ContentDetector.needs_full_content "T" c4_x600 = true := by decide

/-- C4 amended: rules apply in order with first match winning:
`needs_full_content("short", "") = true` (empty content);
`needs_full_content("T", "x"*600) = true` (the at-most-2-paragraphs-and-
under-800-characters rule fires); `needs_full_content("T", "x"*800) = false`
(no rule fires once the single paragraph reaches 800 characters); and any
content of length 600 ending in "Read more" yields `true` via the
truncation-marker scan of the last 100 characters. -/
theorem needs_full_content_cases :
    ContentDetector.needs_full_content "short" "" = true ∧
    ContentDetector.needs_full_content "T" c4_x600 = true ∧
    ContentDetector.needs_full_content "T" c4_x800 = false ∧
    (∀ (title c : String), c.length = 600 → "Read more".data <:+ c.data →
      ContentDetector.needs_full_content title c = true) := by
  refine ⟨by decide, by decide, by decide, ?_⟩
  intro title c hlen hs
  have hlen' : c.data.length = 600 := hlen
  have h0 : ¬ (c.data.isEmpty = true) := by
    rcases hd : c.data with _ | ⟨x, xs⟩
    · rw [hd] at hlen'; simp at hlen'
    · simp [hd]
  simp only [ContentDetector.needs_full_content]
  rw [if_neg h0]
  by_cases h1 : (pyStrip c.data).length < ContentDetector.MIN_CONTENT_LENGTH
  · rw [if_pos h1]
  · rw [if_neg h1]
    simp only [ContentDetector.MIN_CONTENT_LENGTH] at h1
    have hgt : (pyStrip c.data).length > 100 := by omega
    have hrm : "Read more".data <:+ pyStrip c.data :=
      readmore_suffix_strip hs (by omega)
    have hmk : containsSub (pyLower "Read more".data)
        (pyLower ((pyStrip c.data).drop ((pyStrip c.data).length - 100))) = true :=
      readmore_in_tail hrm (by omega)
    have hany : (ContentDetector.TRUNCATION_MARKERS.any fun m =>
        containsSub (pyLower m.data)
          (if (pyStrip c.data).length > 100 then
            pyLower (List.drop ((pyStrip c.data).length - 100) (pyStrip c.data))
          else pyLower (pyStrip c.data))) = true := by
      rw [List.any_eq_true]
      refine ⟨"Read more", by simp [ContentDetector.TRUNCATION_MARKERS], ?_⟩
      rw [if_pos hgt]
      exact hmk
    rw [if_pos hany]

/-- C4 witness: the concrete 600-character content ending in "Read more"
satisfies the hypotheses of the last conjunct. -/
theorem needs_full_content_cases_witness :
    ContentDetector.needs_full_content "T"
      (String.mk (List.replicate 591 'x' ++ "Read more".data)) = true := by
  refine needs_full_content_cases.2.2.2 "T" _ (by decide) ⟨List.replicate 591 'x', rfl⟩

/-! ## Claim C3 -/

/-- If an optional string is falsy (absent or empty), the Python `or`
chain falls through to its right operand. -/
theorem pyOrSO_of_falsy {x : Option String} {y : String} (h : pyTruthy x = false) :
    pyOrSO x y = y := by
  match x with
  | none => rfl
  | some s =>
    simp only [pyTruthy, bne_eq_false_iff_eq] at h
    simp [pyOrSO, h]

/-- C3: startup recovery (`_reset_stuck_states`) rewinds every `analyzing`
article to `pending_analysis` and every `fetching` article to
`pending_fetch`, leaves every other article untouched (in particular, it
never moves an article to `failed`), and afterwards no article is in a
transient state. -/
theorem reset_stuck_states_correct (arts : List Article) :
    (reset_stuck_states arts).1 = arts.map reset_stuck_spec ∧
    ∀ b ∈ (reset_stuck_states arts).1,
      b.process_status ≠ ProcessStatus.ANALYZING ∧
      b.process_status ≠ ProcessStatus.FETCHING := by
  have hpt : ∀ a : Article, rewind_fetching (rewind_analyzing a) = reset_stuck_spec a := by
    intro a
    simp only [rewind_analyzing, rewind_fetching, reset_stuck_spec]
    by_cases ha : a.process_status = ProcessStatus.ANALYZING
    · simp [ha, ProcessStatus.ANALYZING, ProcessStatus.FETCHING,
        ProcessStatus.PENDING_ANALYSIS]
    · by_cases hf : a.process_status = ProcessStatus.FETCHING
      · simp [ha, hf, ProcessStatus.ANALYZING, ProcessStatus.FETCHING,
          ProcessStatus.PENDING_FETCH]
      · simp [ha, hf]
  constructor
  · simp only [reset_stuck_states, List.map_map]
    exact List.map_congr_left (fun a _ => hpt a)
  · intro b hb
    simp only [reset_stuck_states, List.map_map, List.mem_map] at hb
    obtain ⟨a, _, rfl⟩ := hb
    rw [Function.comp_apply, hpt a]
    unfold reset_stuck_spec
    by_cases ha : a.process_status = ProcessStatus.ANALYZING
    · rw [if_pos ha]
      exact ⟨(by decide : ProcessStatus.PENDING_ANALYSIS ≠ ProcessStatus.ANALYZING),
             (by decide : ProcessStatus.PENDING_ANALYSIS ≠ ProcessStatus.FETCHING)⟩
    · rw [if_neg ha]
      by_cases hf : a.process_status = ProcessStatus.FETCHING
      · rw [if_pos hf]
        exact ⟨(by decide : ProcessStatus.PENDING_FETCH ≠ ProcessStatus.ANALYZING),
               (by decide : ProcessStatus.PENDING_FETCH ≠ ProcessStatus.FETCHING)⟩
      · rw [if_neg hf]
        exact ⟨ha, hf⟩

/-- Store left behind by a simulated crash: one article in `analyzing`, one
in `fetching`, one already `done`. -/
def c3_arts : List Article :=
  [{ id := "a1", feed_id := "f", title := "t1", process_status := ProcessStatus.ANALYZING },
   { id := "a2", feed_id := "f", title := "t2", process_status := ProcessStatus.FETCHING },
   { id := "a3", feed_id := "f", title := "t3", process_status := ProcessStatus.DONE }]

/-- C3 witness: on the crashed store, recovery matches the spec's pointwise
description and the first recovered article is no longer transient. -/
theorem reset_stuck_states_correct_witness :
    (reset_stuck_states c3_arts).1 = c3_arts.map reset_stuck_spec ∧
    ((reset_stuck_states c3_arts).1.get ⟨0, by decide⟩).process_status ≠
      ProcessStatus.ANALYZING := by
  refine ⟨(reset_stuck_states_correct c3_arts).1, ?_⟩
  exact ((reset_stuck_states_correct c3_arts).2 _ (by decide)).1

/-! ## Claim C6 -/

/-- Progress state after a run has exited to idle. -/
def c6_progress : ProcessProgress :=
  { status := "idle", total := 5, completed := 3, failed := 2,
    current_article := none, current_stage := none }

/-- C6 counterexample: when the run loop has already exited to idle
(running flag down, progress status "idle"), `resume()` is claimed to have
no effect on the observable progress state; in fact it flips the reported
status to "running" even though nothing is processing. -/
theorem resume_counterexample :
    (ProcessEngine.resume { running := false, paused := false } c6_progress).2 ≠ c6_progress ∧
    (ProcessEngine.resume { running := false, paused := false } c6_progress).2.status = "running" ∧
    c6_progress.status = "idle" := by decide

/-- C6 amended: `resume()` clears the paused flag and leaves the running
flag and all progress counters unchanged, but it unconditionally sets the
observable progress status to "running" — including when the run loop has
already exited to idle, in which case no processing restarts (the caller
must call start again) yet the reported status still changes. -/
theorem resume_spec (e : ProcessEngine) (p : ProcessProgress) :
    (ProcessEngine.resume e p).1.paused = false ∧
    (ProcessEngine.resume e p).1.running = e.running ∧
    (ProcessEngine.resume e p).2.status = "running" ∧
    (ProcessEngine.resume e p).2.completed = p.completed ∧
    (ProcessEngine.resume e p).2.failed = p.failed ∧
    (ProcessEngine.resume e p).2.total = p.total ∧
    (ProcessEngine.resume e p).2.current_article = p.current_article :=
  ⟨rfl, rfl, rfl, rfl, rfl, rfl, rfl⟩

/-! ## Claim C8 -/

/-- C8: `reset_failed_to_pending` re-queues every failed article at the
stage recorded in `process_stage` (`"fetch"` to `pending_fetch`,
`"analysis"` to `pending_analysis`), clears `process_error` and
`process_stage`, leaves non-failed articles untouched, and returns the
number of failed articles; on a store with no failed article it returns
`(arts, 0)` unchanged. -/
theorem reset_failed_to_pending_correct (arts : List Article) :
    ((reset_failed_to_pending arts).2 =
      (arts.filter (fun a => decide (a.process_status = ProcessStatus.FAILED))).length) ∧
    ((∀ a ∈ arts, a.process_status ≠ ProcessStatus.FAILED) →
      reset_failed_to_pending arts = (arts, 0)) ∧
    ((reset_failed_to_pending arts).1.length = arts.length) ∧
    (∀ i (h : i < arts.length) (h2 : i < (reset_failed_to_pending arts).1.length),
      ((arts.get ⟨i, h⟩).process_status = ProcessStatus.FAILED →
        (arts.get ⟨i, h⟩).process_stage = some "fetch" →
        (reset_failed_to_pending arts).1.get ⟨i, h2⟩ =
          { (arts.get ⟨i, h⟩) with
            process_status := ProcessStatus.PENDING_FETCH,
            process_error := none, process_stage := none }) ∧
      ((arts.get ⟨i, h⟩).process_status = ProcessStatus.FAILED →
        (arts.get ⟨i, h⟩).process_stage = some "analysis" →
        (reset_failed_to_pending arts).1.get ⟨i, h2⟩ =
          { (arts.get ⟨i, h⟩) with
            process_status := ProcessStatus.PENDING_ANALYSIS,
            process_error := none, process_stage := none }) ∧
      ((arts.get ⟨i, h⟩).process_status ≠ ProcessStatus.FAILED →
        (reset_failed_to_pending arts).1.get ⟨i, h2⟩ = arts.get ⟨i, h⟩)) := by
  refine ⟨?_, ?_, ?_, ?_⟩
  · simp only [reset_failed_to_pending]
    rw [List.countP_eq_length_filter]
    congr 1
  · intro hall
    simp only [reset_failed_to_pending, Prod.mk.injEq]
    refine ⟨?_, ?_⟩
    · rw [List.map_congr_left (fun a ha => if_neg (hall a ha))]
      exact List.map_id' arts
    · rw [List.countP_eq_zero]
      intro a ha
      simp only [beq_iff_eq]
      exact hall a ha
  · simp [reset_failed_to_pending]
  · intro i h h2
    have hget : (reset_failed_to_pending arts).1.get ⟨i, h2⟩ =
        (fun a => if a.process_status = ProcessStatus.FAILED then reset_article a else a)
          (arts.get ⟨i, h⟩) := by
      simp only [reset_failed_to_pending]
      exact List.get_map _
    refine ⟨?_, ?_, ?_⟩
    · intro hfail hstage
      rw [hget]
      simp only [List.get_eq_getElem] at hfail hstage
      simp [hfail, hstage, reset_article]
    · intro hfail hstage
      rw [hget]
      simp only [List.get_eq_getElem] at hfail hstage
      simp [hfail, hstage, reset_article]
    · intro hfail
      rw [hget]
      simp only [List.get_eq_getElem] at hfail
      simp [hfail]

/-- Failed store exercising both reset branches, plus a non-failed article. -/
def c8_arts : List Article :=
  [{ id := "b1", feed_id := "f", title := "u1", process_status := ProcessStatus.FAILED,
     process_stage := some "fetch", process_error := some "download failed" },
   { id := "b2", feed_id := "f", title := "u2", process_status := ProcessStatus.FAILED,
     process_stage := some "analysis", process_error := some "llm failed" },
   { id := "b3", feed_id := "f", title := "u3", process_status := ProcessStatus.DONE }]

/-- C8 witness: the theorem applied to a concrete store with two failed
articles (one per stage) and to an all-clean store. -/
theorem reset_failed_to_pending_correct_witness :
    ((reset_failed_to_pending c8_arts).2 =
      (c8_arts.filter (fun a => decide (a.process_status = ProcessStatus.FAILED))).length) ∧
    reset_failed_to_pending [] = ([], 0) ∧
    (reset_failed_to_pending c8_arts).1.get ⟨0, by decide⟩ =
      { (c8_arts.get ⟨0, by decide⟩) with
        process_status := ProcessStatus.PENDING_FETCH,
        process_error := none, process_stage := none } ∧
    (reset_failed_to_pending c8_arts).1.get ⟨1, by decide⟩ =
      { (c8_arts.get ⟨1, by decide⟩) with
        process_status := ProcessStatus.PENDING_ANALYSIS,
        process_error := none, process_stage := none } ∧
    (reset_failed_to_pending c8_arts).1.get ⟨2, by decide⟩ = c8_arts.get ⟨2, by decide⟩ := by
  refine ⟨(reset_failed_to_pending_correct c8_arts).1,
          (reset_failed_to_pending_correct []).2.1 (by intro a ha; cases ha),
          ((reset_failed_to_pending_correct c8_arts).2.2.2 0 (by decide) (by decide)).1
            (by decide) (by decide),
          ((reset_failed_to_pending_correct c8_arts).2.2.2 1 (by decide) (by decide)).2.1
            (by decide) (by decide),
          ((reset_failed_to_pending_correct c8_arts).2.2.2 2 (by decide) (by decide)).2.2
            (by decide)⟩

/-! ## Claim C9 -/

/-- C9: for an article entering the analysis step with no content available
(neither fetched full content nor extracted text is truthy), the step
transitions the article to `done` and increments the completed counter,
without consulting the analysis client (the outcome is identical for any
two environments) and without touching the stored `AnalysisResult` rows. -/
theorem do_analysis_no_content (env env2 : PipelineEnv) (a : Article)
    (p : ProcessProgress) (rows : List ArticleAnalysis)
    (h1 : pyTruthy a.full_content = false) (h2 : pyTruthy a.content_text = false) :
    do_analysis env a p rows =
      .ok ({ a with process_status := ProcessStatus.DONE },
           { p with current_stage := some "analysis", completed := p.completed + 1 },
           rows) ∧
    do_analysis env a p rows = do_analysis env2 a p rows := by
  have hmain : ∀ e : PipelineEnv, do_analysis e a p rows =
      .ok ({ a with process_status := ProcessStatus.DONE },
           { p with current_stage := some "analysis", completed := p.completed + 1 },
           rows) := by
    intro e
    simp only [do_analysis]
    rw [if_pos]
    rw [pyOrSO_of_falsy h1, pyOrSO_of_falsy h2]
  exact ⟨hmain env, (hmain env).trans (hmain env2).symm⟩

/-- Contentless article sitting in front of the analysis stage. -/
def c9_article : Article :=
  { id := "a9", feed_id := "f", title := "quiet", url := some "http://x",
    full_content := some "", content_text := none,
    process_status := ProcessStatus.PENDING_ANALYSIS }

/-- Environment whose analyzer would fail loudly if it were consulted. -/
def c9_env : PipelineEnv :=
  { fetch := fun _ => .value { success := false },
    analysis := fun _ => .raised "RuntimeError" "must not be called",
    feeds := fun _ => none }

/-- Environment whose analyzer would escape with an exception if consulted. -/
def c9_env2 : PipelineEnv :=
  { fetch := fun _ => .exn "network down",
    analysis := fun _ => .exn "semaphore misconfigured",
    feeds := fun _ => none }

/-- C9 witness: the contentless article is completed degenerately under both
hostile environments. -/
theorem do_analysis_no_content_witness :
    do_analysis c9_env c9_article {} [] =
      .ok ({ c9_article with process_status := ProcessStatus.DONE },
           { ({} : ProcessProgress) with
             current_stage := some "analysis",
             completed := ({} : ProcessProgress).completed + 1 },
           []) ∧
    do_analysis c9_env c9_article {} [] = do_analysis c9_env2 c9_article {} [] :=
  do_analysis_no_content c9_env c9_env2 c9_article {} [] (by decide) (by decide)

/-! ## Claim C7 -/

/-- The fresh row inserted by `_do_analysis` when no row for the article
exists yet (processor.py lines 470-480). -/
def new_analysis_row (aid : String) (r : AnalysisData) (model : String) : ArticleAnalysis :=
  { article_id := aid, summary := some r.summary, key_points := some r.key_points,
    value_score := some r.value_score, reading_time := some r.reading_time,
    language := some r.language, tags := some r.tags, model_used := some model }

/-- When a row for the article already exists, the upsert rewrites rows in
place and preserves every per-id row count. -/
theorem upsert_analysis_count_of_mem (aid : String) (r : AnalysisData) (model : String)
    (rows : List ArticleAnalysis)
    (hmem : rows.any (fun x => x.article_id == aid) = true) :
    ∀ q, analyses_count (upsert_analysis aid r model rows) q = analyses_count rows q := by
  intro q
  unfold upsert_analysis
  rw [if_pos hmem]
  unfold analyses_count
  rw [List.countP_map]
  refine List.countP_congr ?_
  intro x _
  by_cases hx : x.article_id == aid
  · simp [Function.comp, hx, update_analysis_row]
  · simp [Function.comp, hx]

/-- When no row for the article exists, the upsert appends the fresh row. -/
theorem upsert_analysis_of_not_mem (aid : String) (r : AnalysisData) (model : String)
    (rows : List ArticleAnalysis)
    (hmem : rows.any (fun x => x.article_id == aid) = false) :
    upsert_analysis aid r model rows = rows ++ [new_analysis_row aid r model] ∧
    analyses_count rows aid = 0 := by
  constructor
  · unfold upsert_analysis
    rw [if_neg (by simp [hmem])]
    rfl
  · unfold analyses_count
    rw [List.countP_eq_zero]
    intro x hx
    exact List.any_eq_false.mp hmem x hx

/-- Per-id count of the single fresh row. -/
theorem analyses_count_single (aid q : String) (r : AnalysisData) (model : String) :
    analyses_count [new_analysis_row aid r model] q = if q = aid then 1 else 0 := by
  unfold analyses_count
  simp only [List.countP_cons, List.countP_nil]
  by_cases h : q = aid
  · subst h
    simp [new_analysis_row]
  · rw [if_neg h]
    have hb : ((new_analysis_row aid r model).article_id == q) = false := by
      simp only [new_analysis_row, beq_eq_false_iff_ne, ne_eq]
      exact fun hc => h hc.symm
    rw [hb]
    rfl

/-- Count arithmetic for an insert-upsert. -/
theorem upsert_analysis_count_of_not_mem (aid : String) (r : AnalysisData) (model : String)
    (rows : List ArticleAnalysis)
    (hmem : rows.any (fun x => x.article_id == aid) = false) :
    ∀ q, analyses_count (upsert_analysis aid r model rows) q =
      analyses_count rows q + (if q = aid then 1 else 0) := by
  intro q
  obtain ⟨hrows2, -⟩ := upsert_analysis_of_not_mem aid r model rows hmem
  rw [hrows2]
  have hs := analyses_count_single aid q r model
  unfold analyses_count at hs ⊢
  rw [List.countP_append, hs]

/-- C7: every successful analysis upserts exactly one `AnalysisResult` row
keyed by the article id: if the store holds at most one row per id, then
after the analysis step the article's id has exactly one row, uniqueness is
preserved for every id, other ids' counts are untouched, the first success
appends a row, and a re-analysis keeps the row count unchanged (overwrite,
not insert-duplicate). -/
theorem analysis_upsert_unique (env : PipelineEnv) (a : Article)
    (p : ProcessProgress) (rows : List ArticleAnalysis) (r : AnalysisData)
    (henv : env.analysis a.id = .value r)
    (hcontent : pyOrSO a.full_content (pyOrSO a.content_text "") ≠ "")
    (huniq : ∀ aid, analyses_count rows aid ≤ 1) :
    ∃ a2 p2 rows2,
      do_analysis env a p rows = .ok (a2, p2, rows2) ∧
      analyses_count rows2 a.id = 1 ∧
      (∀ aid, analyses_count rows2 aid ≤ 1) ∧
      (∀ aid, aid ≠ a.id → analyses_count rows2 aid = analyses_count rows aid) ∧
      (analyses_count rows a.id = 0 → rows2.length = rows.length + 1) ∧
      (analyses_count rows a.id = 1 → rows2.length = rows.length) := by
  have hstep : do_analysis env a p rows =
      .ok ({ a with process_status := ProcessStatus.DONE },
           { p with current_stage := some "analysis", completed := p.completed + 1 },
           upsert_analysis a.id r env.model_name rows) := by
    simp only [do_analysis]
    rw [if_neg hcontent, henv]
  refine ⟨_, _, _, hstep, ?_, ?_, ?_, ?_, ?_⟩
  all_goals by_cases hmem : rows.any (fun x => x.article_id == a.id) = true
  case pos =>
    have hpos : 0 < analyses_count rows a.id := by
      unfold analyses_count
      rw [List.countP_pos_iff]
      exact List.any_eq_true.mp hmem
    rw [upsert_analysis_count_of_mem a.id r env.model_name rows hmem]
    have := huniq a.id
    omega
  case neg =>
    have hfalse : rows.any (fun x => x.article_id == a.id) = false := by
      simpa using hmem
    rw [upsert_analysis_count_of_not_mem a.id r env.model_name rows hfalse, if_pos rfl,
      (upsert_analysis_of_not_mem a.id r env.model_name rows hfalse).2]
  case pos =>
    intro aid
    rw [upsert_analysis_count_of_mem a.id r env.model_name rows hmem]
    exact huniq aid
  case neg =>
    intro aid
    have hfalse : rows.any (fun x => x.article_id == a.id) = false := by
      simpa using hmem
    rw [upsert_analysis_count_of_not_mem a.id r env.model_name rows hfalse]
    by_cases haid : aid = a.id
    · subst haid
      rw [(upsert_analysis_of_not_mem a.id r env.model_name rows hfalse).2, if_pos rfl]
    · rw [if_neg haid]
      have := huniq aid
      omega
  case pos =>
    intro aid _
    rw [upsert_analysis_count_of_mem a.id r env.model_name rows hmem]
  case neg =>
    intro aid hne
    have hfalse : rows.any (fun x => x.article_id == a.id) = false := by
      simpa using hmem
    rw [upsert_analysis_count_of_not_mem a.id r env.model_name rows hfalse, if_neg hne]
    omega
  case pos =>
    intro hz
    exfalso
    have hpos : 0 < analyses_count rows a.id := by
      unfold analyses_count
      rw [List.countP_pos_iff]
      exact List.any_eq_true.mp hmem
    omega
  case neg =>
    intro _
    have hfalse : rows.any (fun x => x.article_id == a.id) = false := by
      simpa using hmem
    rw [(upsert_analysis_of_not_mem a.id r env.model_name rows hfalse).1,
      List.length_append]
    rfl
  case pos =>
    intro _
    unfold upsert_analysis
    rw [if_pos hmem, List.length_map]
  case neg =>
    intro h1
    exfalso
    have hfalse : rows.any (fun x => x.article_id == a.id) = false := by
      simpa using hmem
    have h0 := (upsert_analysis_of_not_mem a.id r env.model_name rows hfalse).2
    omega

/-- Article and environment for a concrete successful analysis. -/
def c7_article : Article :=
  { id := "a7", feed_id := "f", title := "t", full_content := some "body",
    process_status := ProcessStatus.PENDING_ANALYSIS }

/-- Concrete analyzer output. -/
def c7_data : AnalysisData :=
  { summary := "s", key_points := ["k"], value_score := 8, reading_time := 3,
    language := "en", tags := ["x"] }

/-- Environment returning the concrete analyzer output. -/
def c7_env : PipelineEnv :=
  { fetch := fun _ => .value { success := false },
    analysis := fun _ => .value c7_data,
    feeds := fun _ => none, model_name := "m1" }

/-- C7 witness: analysing the concrete article against an empty analysis
table produces exactly one row for its id, and re-analysing against the
resulting table keeps exactly one row. -/
theorem analysis_upsert_unique_witness :
    ∃ a2 p2 rows2,
      do_analysis c7_env c7_article {} [] = .ok (a2, p2, rows2) ∧
      analyses_count rows2 "a7" = 1 ∧
      (analyses_count ([] : List ArticleAnalysis) "a7" = 0 → rows2.length = 0 + 1) := by
  obtain ⟨a2, p2, rows2, h1, h2, h3, h4, h5, h6⟩ :=
    analysis_upsert_unique c7_env c7_article {} [] c7_data rfl (by decide)
      (fun aid => by simp [analyses_count])
  exact ⟨a2, p2, rows2, h1, h2, h5⟩

/-! ## Step inversion lemmas for the pipeline stages -/

/-- Irrelevance of the process status to `_should_fetch`. -/
theorem should_fetch_status_irrel (a : Article) (s : String) (f : Option Feed) :
    should_fetch { a with process_status := s } f = should_fetch a f := by
  cases f <;> rfl

/-- Inversion for the fetch step: a normal return leaves the article either
re-queued for analysis (stage untouched, counters untouched) or failed at
stage "fetch" (failed counter bumped); an escaping exception leaves the
article committed as `fetching` with stage and counters untouched, and can
only come from the extractor call on the article's URL. -/
theorem do_fetch_spec (env : PipelineEnv) (a : Article) (p : ProcessProgress) :
    (∀ a1 p1, do_fetch env a p = .ok (a1, p1) →
       a1.id = a.id ∧
       ((a1.process_status = ProcessStatus.PENDING_ANALYSIS ∧
         a1.process_stage = a.process_stage ∧
         p1.completed = p.completed ∧ p1.failed = p.failed) ∨
        (a1.process_status = ProcessStatus.FAILED ∧ a1.process_stage = some "fetch" ∧
         p1.completed = p.completed ∧ p1.failed = p.failed + 1))) ∧
    (∀ msg a1 p1, do_fetch env a p = .error (msg, a1, p1) →
       a1.process_status = ProcessStatus.FETCHING ∧ a1.process_stage = a.process_stage ∧
       p1.completed = p.completed ∧ p1.failed = p.failed ∧
       (∃ url, a.url = some url ∧ env.fetch url = .exn msg)) := by
  constructor
  · intro a1 p1 h
    simp only [do_fetch] at h
    rcases hu : a.url with _ | url
    · simp only [hu] at h
      simp only [Except.ok.injEq, Prod.mk.injEq] at h
      obtain ⟨h1, h2⟩ := h
      subst h1
      subst h2
      exact ⟨rfl, Or.inl ⟨rfl, rfl, rfl, rfl⟩⟩
    · simp only [hu] at h
      by_cases hsf : should_fetch
          { a with url := some url, process_status := ProcessStatus.FETCHING }
          (env.feeds a.feed_id) = true
      · simp only [hsf, Bool.not_true, Bool.false_eq_true, if_false] at h
        rcases hf : env.fetch url with r | msg0
        · simp only [hf] at h
          by_cases hrc : (r.success && pyTruthy r.content) = true
          · simp only [hrc, if_true] at h
            simp only [Except.ok.injEq, Prod.mk.injEq] at h
            obtain ⟨h1, h2⟩ := h
            subst h1
            subst h2
            exact ⟨rfl, Or.inl ⟨rfl, rfl, rfl, rfl⟩⟩
          · simp only [hrc, Bool.false_eq_true, if_false] at h
            simp only [Except.ok.injEq, Prod.mk.injEq] at h
            obtain ⟨h1, h2⟩ := h
            subst h1
            subst h2
            exact ⟨rfl, Or.inr ⟨rfl, rfl, rfl, rfl⟩⟩
        · simp only [hf] at h
          exact Except.noConfusion h
      · simp only [eq_false_of_ne_true hsf, Bool.not_false, if_true] at h
        simp only [Except.ok.injEq, Prod.mk.injEq] at h
        obtain ⟨h1, h2⟩ := h
        subst h1
        subst h2
        exact ⟨rfl, Or.inl ⟨rfl, rfl, rfl, rfl⟩⟩
  · intro msg a1 p1 h
    simp only [do_fetch] at h
    rcases hu : a.url with _ | url
    · simp only [hu] at h
      exact Except.noConfusion h
    · simp only [hu] at h
      by_cases hsf : should_fetch
          { a with url := some url, process_status := ProcessStatus.FETCHING }
          (env.feeds a.feed_id) = true
      · simp only [hsf, Bool.not_true, Bool.false_eq_true, if_false] at h
        rcases hf : env.fetch url with r | msg0
        · simp only [hf] at h
          by_cases hrc : (r.success && pyTruthy r.content) = true
          · simp only [hrc, if_true] at h
            exact Except.noConfusion h
          · simp only [hrc, Bool.false_eq_true, if_false] at h
            exact Except.noConfusion h
        · simp only [hf] at h
          simp only [Except.error.injEq, Prod.mk.injEq] at h
          obtain ⟨h0, h1, h2⟩ := h
          subst h0
          subst h1
          subst h2
          exact ⟨rfl, rfl, rfl, rfl, url, rfl, hf⟩
      · simp only [eq_false_of_ne_true hsf, Bool.not_false, if_true] at h
        exact Except.noConfusion h

/-- Inversion for the analysis step: a normal return leaves the article
either done (stage untouched, completed counter bumped) or failed at stage
"analysis" (failed counter bumped); an escaping exception leaves the article
committed as `analyzing` with everything else untouched, and corresponds to
the environment's `exn` outcome. -/
theorem do_analysis_spec (env : PipelineEnv) (a : Article) (p : ProcessProgress)
    (rows : List ArticleAnalysis) :
    (∀ a2 p2 rows2, do_analysis env a p rows = .ok (a2, p2, rows2) →
       ((a2.process_status = ProcessStatus.DONE ∧ a2.process_stage = a.process_stage ∧
         p2.completed = p.completed + 1 ∧ p2.failed = p.failed) ∨
        (a2.process_status = ProcessStatus.FAILED ∧ a2.process_stage = some "analysis" ∧
         p2.completed = p.completed ∧ p2.failed = p.failed + 1))) ∧
    (∀ msg a2 p2 rows2, do_analysis env a p rows = .error (msg, a2, p2, rows2) →
       a2.process_status = ProcessStatus.ANALYZING ∧ a2.process_stage = a.process_stage ∧
       p2.completed = p.completed ∧ p2.failed = p.failed ∧ rows2 = rows ∧
       env.analysis a.id = .exn msg) := by
  constructor
  · intro a2 p2 rows2 h
    simp only [do_analysis] at h
    by_cases hcc : pyOrSO a.full_content (pyOrSO a.content_text "") = ""
    · rw [if_pos hcc] at h
      simp only [Except.ok.injEq, Prod.mk.injEq] at h
      obtain ⟨h1, h2, h3⟩ := h
      subst h1
      subst h2
      left
      exact ⟨rfl, rfl, rfl, rfl⟩
    · rw [if_neg hcc] at h
      rcases he : env.analysis a.id with r | ⟨en, em⟩ | msg0
      · rw [he] at h
        simp only [Except.ok.injEq, Prod.mk.injEq] at h
        obtain ⟨h1, h2, h3⟩ := h
        subst h1
        subst h2
        left
        exact ⟨rfl, rfl, rfl, rfl⟩
      · rw [he] at h
        simp only [Except.ok.injEq, Prod.mk.injEq] at h
        obtain ⟨h1, h2, h3⟩ := h
        subst h1
        subst h2
        right
        exact ⟨rfl, rfl, rfl, rfl⟩
      · rw [he] at h
        exact Except.noConfusion h
  · intro msg a2 p2 rows2 h
    simp only [do_analysis] at h
    by_cases hcc : pyOrSO a.full_content (pyOrSO a.content_text "") = ""
    · rw [if_pos hcc] at h
      exact Except.noConfusion h
    · rw [if_neg hcc] at h
      rcases he : env.analysis a.id with r | ⟨en, em⟩ | msg0
      · rw [he] at h
        exact Except.noConfusion h
      · rw [he] at h
        exact Except.noConfusion h
      · rw [he] at h
        simp only [Except.error.injEq, Prod.mk.injEq] at h
        obtain ⟨h0, h1, h2, h3⟩ := h
        subst h0
        subst h1
        subst h2
        subst h3
        exact ⟨rfl, rfl, rfl, rfl, rfl, rfl⟩

/-- Spelling out the eligibility query. -/
theorem is_pending_iff (a : Article) : is_pending a = true ↔
    (a.process_status = ProcessStatus.SYNCED ∨
     a.process_status = ProcessStatus.PENDING_FETCH ∨
     a.process_status = ProcessStatus.PENDING_ANALYSIS) := by
  unfold is_pending pending_statuses
  simp

/-- An article whose stages are not due is returned untouched (only the
in-flight label on the progress record changes). -/
theorem process_one_not_pending (env : PipelineEnv) (a : Article) (p : ProcessProgress)
    (rows : List ArticleAnalysis) (ha : is_pending a = false) :
    process_one env a p rows =
      (a, { p with current_article := some (a.title.take 50) }, rows) := by
  have hnot := (Bool.eq_false_iff.mp ha)
  have hm : ¬ (a.process_status ∈ [ProcessStatus.SYNCED, ProcessStatus.PENDING_FETCH]) := by
    intro hmem
    apply hnot
    rw [is_pending_iff]
    rw [List.mem_cons, List.mem_singleton] at hmem
    rcases hmem with h | h
    · exact Or.inl h
    · exact Or.inr (Or.inl h)
  have hpa : ¬ (a.process_status = ProcessStatus.PENDING_ANALYSIS) := by
    intro hq
    exact hnot ((is_pending_iff a).mpr (Or.inr (Or.inr hq)))
  simp only [process_one]
  rw [if_neg hm]
  dsimp only
  rw [if_neg hpa]

/-- Omnibus case analysis for `_process_one`: the per-article step either
(1) hits the catch-all exception handler — the article is failed with its
`process_stage` left as it was, exactly one failure is counted, and some
stage exception actually escaped; (2) fails inside a stage — stage `"fetch"`
or `"analysis"` is recorded with the failure counted; (3) completes the
article — `process_stage` is untouched and one completion is counted (and
the article was not previously failed); or (4) the article was not eligible
in the first place. -/
theorem process_one_cases (env : PipelineEnv) (a : Article) (p : ProcessProgress)
    (rows : List ArticleAnalysis) :
    ((process_one env a p rows).1.process_status = ProcessStatus.FAILED ∧
       (process_one env a p rows).1.process_stage = a.process_stage ∧
       (process_one env a p rows).2.1.completed + (process_one env a p rows).2.1.failed
         = p.completed + p.failed + 1 ∧
       ¬ no_step_exn env a) ∨
    ((process_one env a p rows).1.process_status = ProcessStatus.FAILED ∧
       ((process_one env a p rows).1.process_stage = some "fetch" ∨
        (process_one env a p rows).1.process_stage = some "analysis") ∧
       (process_one env a p rows).2.1.completed + (process_one env a p rows).2.1.failed
         = p.completed + p.failed + 1) ∨
    ((process_one env a p rows).1.process_status = ProcessStatus.DONE ∧
       (process_one env a p rows).1.process_stage = a.process_stage ∧
       a.process_status ≠ ProcessStatus.FAILED ∧
       (process_one env a p rows).2.1.completed + (process_one env a p rows).2.1.failed
         = p.completed + p.failed + 1) ∨
    is_pending a = false := by
  by_cases hm : a.process_status ∈ [ProcessStatus.SYNCED, ProcessStatus.PENDING_FETCH]
  · have hnotfail : a.process_status ≠ ProcessStatus.FAILED := by
      have hm2 := hm
      rw [List.mem_cons, List.mem_singleton] at hm2
      rcases hm2 with h | h
      · rw [h]; decide
      · rw [h]; decide
    rcases hdf : do_fetch env a { p with current_article := some (a.title.take 50) }
        with ⟨msg, a1, p1⟩ | ⟨a1, p1⟩
    · obtain ⟨-, hstg, hc, hfc, url, hu, hexn⟩ :=
        (do_fetch_spec env a _).2 msg a1 p1 hdf
      have heq : process_one env a p rows =
          ({ a1 with process_status := ProcessStatus.FAILED, process_error := some msg },
           { p1 with failed := p1.failed + 1 }, rows) := by
        simp only [process_one]
        rw [if_pos hm, hdf]
      left
      rw [heq]
      refine ⟨rfl, hstg, ?_, ?_⟩
      · simp only at hc hfc
        simp only
        omega
      · intro hno
        exact hno.1 url msg hu hexn
    · obtain ⟨hid, hok⟩ := (do_fetch_spec env a _).1 a1 p1 hdf
      rcases hok with ⟨hpa1, hstg1, hc1, hf1⟩ | ⟨hfl1, hstg1, hc1, hf1⟩
      · rcases hda : do_analysis env a1 p1 rows with ⟨msg2, a2, p2, rows2⟩ | ⟨a2, p2, rows2⟩
        · obtain ⟨-, hstg2, hc2, hf2, -, hexn2⟩ :=
            (do_analysis_spec env a1 p1 rows).2 msg2 a2 p2 rows2 hda
          have heq : process_one env a p rows =
              ({ a2 with process_status := ProcessStatus.FAILED, process_error := some msg2 },
               { p2 with failed := p2.failed + 1 }, rows2) := by
            simp only [process_one]
            rw [if_pos hm, hdf]
            dsimp only
            rw [if_pos hpa1, hda]
          left
          rw [heq]
          refine ⟨rfl, ?_, ?_, ?_⟩
          · simp only
            rw [hstg2, hstg1]
          · simp only at hc1 hf1 hc2 hf2 ⊢
            omega
          · intro hno
            rw [hid] at hexn2
            exact hno.2 msg2 hexn2
        · obtain hok2 := (do_analysis_spec env a1 p1 rows).1 a2 p2 rows2 hda
          have heq : process_one env a p rows = (a2, p2, rows2) := by
            simp only [process_one]
            rw [if_pos hm, hdf]
            dsimp only
            rw [if_pos hpa1, hda]
          rcases hok2 with ⟨hst2, hstg2, hc2, hf2⟩ | ⟨hst2, hstg2, hc2, hf2⟩
          · right; right; left
            rw [heq]
            refine ⟨hst2, ?_, hnotfail, ?_⟩
            · rw [hstg2, hstg1]
            · simp only at hc1 hf1 hc2 hf2 ⊢
              omega
          · right; left
            rw [heq]
            refine ⟨hst2, Or.inr hstg2, ?_⟩
            simp only at hc1 hf1 hc2 hf2 ⊢
            omega
      · have heq : process_one env a p rows = (a1, p1, rows) := by
          simp only [process_one]
          rw [if_pos hm, hdf]
          dsimp only
          rw [if_neg (fun hcon => absurd (hfl1.symm.trans hcon) (by decide))]
        right; left
        rw [heq]
        refine ⟨hfl1, Or.inl hstg1, ?_⟩
        simp only at hc1 hf1 ⊢
        omega
  · by_cases hpa : a.process_status = ProcessStatus.PENDING_ANALYSIS
    · have hnotfail : a.process_status ≠ ProcessStatus.FAILED := by
        rw [hpa]; decide
      rcases hda : do_analysis env a
          { p with current_article := some (a.title.take 50) } rows
          with ⟨msg2, a2, p2, rows2⟩ | ⟨a2, p2, rows2⟩
      · obtain ⟨-, hstg2, hc2, hf2, -, hexn2⟩ :=
          (do_analysis_spec env a _ rows).2 msg2 a2 p2 rows2 hda
        have heq : process_one env a p rows =
            ({ a2 with process_status := ProcessStatus.FAILED, process_error := some msg2 },
             { p2 with failed := p2.failed + 1 }, rows2) := by
          simp only [process_one]
          rw [if_neg hm]
          dsimp only
          rw [if_pos hpa, hda]
        left
        rw [heq]
        refine ⟨rfl, hstg2, ?_, ?_⟩
        · simp only at hc2 hf2 ⊢
          omega
        · intro hno
          exact hno.2 msg2 hexn2
      · obtain hok2 := (do_analysis_spec env a _ rows).1 a2 p2 rows2 hda
        have heq : process_one env a p rows = (a2, p2, rows2) := by
          simp only [process_one]
          rw [if_neg hm]
          dsimp only
          rw [if_pos hpa, hda]
        rcases hok2 with ⟨hst2, hstg2, hc2, hf2⟩ | ⟨hst2, hstg2, hc2, hf2⟩
        · right; right; left
          rw [heq]
          refine ⟨hst2, hstg2, hnotfail, ?_⟩
          simp only at hc2 hf2 ⊢
          omega
        · right; left
          rw [heq]
          refine ⟨hst2, Or.inr hstg2, ?_⟩
          simp only at hc2 hf2 ⊢
          omega
    · right; right; right
      rw [Bool.eq_false_iff]
      intro htrue
      rcases (is_pending_iff a).mp htrue with h | h | h
      · exact hm (by rw [h]; simp)
      · exact hm (by rw [h]; simp)
      · exact hpa h

/-! ## Claim C1 -/

/-- Synced article whose fetch raises an unexpected exception. -/
def c1_article : Article :=
  { id := "a1", feed_id := "f", title := "t", url := some "http://x",
    process_status := ProcessStatus.SYNCED }

/-- Environment in which every external call raises. -/
def c1_env : PipelineEnv :=
  { fetch := fun _ => .exn "boom", analysis := fun _ => .exn "boom",
    feeds := fun _ => none }

/-- C1 counterexample: after the per-article exception handler runs for a
synced article whose fetch step raised, the article is `failed` but
`process_stage` is still null — the handler (processor.py lines 292-297)
never sets it, so the claimed invariant is violated. -/
theorem stage_invariant_counterexample :
    (process_one c1_env c1_article {} []).1.process_status = ProcessStatus.FAILED ∧
    (process_one c1_env c1_article {} []).1.process_stage = none ∧
    ¬ stage_consistent (process_one c1_env c1_article {} []).1 := by
  refine ⟨rfl, rfl, ?_⟩
  intro h
  have h1 : (process_one c1_env c1_article {} []).1.process_stage = none := rfl
  have h2 := h.mpr rfl
  rw [h1] at h2
  exact h2 rfl

/-- C1 amended: the direction "`process_stage` non-null implies
`process_status == failed`" survives every per-article step, and the full
iff survives any step in which no unexpected exception escapes a stage, as
well as reset (which restores the full iff even after catch-all damage) and
startup recovery; but the per-article catch-all exception handler can leave
a `failed` article with null `process_stage`, so after it only the one
direction is guaranteed. -/
theorem stage_invariant_amended :
    (∀ env a p rows,
       (a.process_stage ≠ none → a.process_status = ProcessStatus.FAILED) →
       ((process_one env a p rows).1.process_stage ≠ none →
         (process_one env a p rows).1.process_status = ProcessStatus.FAILED)) ∧
    (∀ env a p rows, no_step_exn env a → stage_consistent a →
       stage_consistent (process_one env a p rows).1) ∧
    (∀ arts, (∀ a ∈ arts, a.process_stage ≠ none → a.process_status = ProcessStatus.FAILED) →
       ∀ b ∈ (reset_failed_to_pending arts).1, stage_consistent b) ∧
    (∀ arts, (∀ a ∈ arts, stage_consistent a) →
       ∀ b ∈ (reset_stuck_states arts).1, stage_consistent b) := by
  refine ⟨?_, ?_, ?_, ?_⟩
  · intro env a p rows himp hstg
    rcases process_one_cases env a p rows with ⟨h1, -, -, -⟩ | ⟨h1, -, -⟩ |
        ⟨h1, h2, h3, -⟩ | h4
    · exact h1
    · exact h1
    · exfalso
      rw [h2] at hstg
      exact h3 (himp hstg)
    · rw [process_one_not_pending env a p rows h4] at hstg ⊢
      exact himp hstg
  · intro env a p rows hno hcons
    rcases process_one_cases env a p rows with ⟨-, -, -, hexn⟩ | ⟨h1, h2, -⟩ |
        ⟨h1, h2, h3, -⟩ | h4
    · exact absurd hno hexn
    · rcases h2 with h2 | h2 <;>
        simp [stage_consistent, h1, h2]
    · have hstage0 : a.process_stage = none := by
        by_contra hne
        exact h3 (hcons.mp hne)
      rw [hstage0] at h2
      simp [stage_consistent, h1, h2, ProcessStatus.DONE, ProcessStatus.FAILED]
    · rw [process_one_not_pending env a p rows h4]
      exact hcons
  · intro arts hdir b hb
    simp only [reset_failed_to_pending] at hb
    rw [List.mem_map] at hb
    obtain ⟨a, ha, rfl⟩ := hb
    by_cases hfail : a.process_status = ProcessStatus.FAILED
    · rw [if_pos hfail]
      by_cases hstg : a.process_stage = some "fetch" <;>
        simp [stage_consistent, reset_article, hstg, ProcessStatus.PENDING_FETCH,
          ProcessStatus.PENDING_ANALYSIS, ProcessStatus.FAILED]
    · rw [if_neg hfail]
      have hstage0 : a.process_stage = none := by
        by_contra hne
        exact hfail (hdir a ha hne)
      simp [stage_consistent, hstage0, hfail]
  · intro arts hcons b hb
    simp only [reset_stuck_states, List.map_map, List.mem_map] at hb
    obtain ⟨a, ha, rfl⟩ := hb
    rw [Function.comp_apply]
    unfold rewind_analyzing rewind_fetching
    by_cases h1 : a.process_status = ProcessStatus.ANALYZING
    · rw [if_pos h1,
        if_neg (fun hcon =>
          (by decide : ProcessStatus.PENDING_ANALYSIS ≠ ProcessStatus.FETCHING) hcon)]
      have hs0 : a.process_stage = none := by
        by_contra hne
        have hf := (hcons a ha).mp hne
        rw [h1] at hf
        exact absurd hf (by decide)
      simp [stage_consistent, hs0, ProcessStatus.PENDING_ANALYSIS, ProcessStatus.FAILED]
    · rw [if_neg h1]
      by_cases h2 : a.process_status = ProcessStatus.FETCHING
      · rw [if_pos h2]
        have hs0 : a.process_stage = none := by
          by_contra hne
          have hf := (hcons a ha).mp hne
          rw [h2] at hf
          exact absurd hf (by decide)
        simp [stage_consistent, hs0, ProcessStatus.PENDING_FETCH, ProcessStatus.FAILED]
      · rw [if_neg h2]
        exact hcons a ha

/-- Pending-analysis article with content, for the healthy-path witness. -/
def c1w_ok : Article :=
  { id := "w1", feed_id := "f", title := "t", url := none,
    content_text := some "hello",
    process_status := ProcessStatus.PENDING_ANALYSIS }

/-- Environment whose stages return values (no escaping exception). -/
def c1w_env : PipelineEnv :=
  { fetch := fun _ => .value { success := true, content := some "text" },
    analysis := fun _ => .value {},
    feeds := fun _ => none }

/-- Synced article whose fetch returns a failure value (stage failure). -/
def c1w_fetchfail : Article :=
  { id := "w2", feed_id := "f", title := "t", url := some "http://y",
    process_status := ProcessStatus.SYNCED }

/-- Environment whose fetch returns an unsuccessful result. -/
def c1w_env2 : PipelineEnv :=
  { fetch := fun _ => .value { success := false, error := some "403" },
    analysis := fun _ => .value {},
    feeds := fun _ => none }

/-- Store with one failed article (stage recorded) and one clean one. -/
def c1w_arts : List Article :=
  [{ id := "w3", feed_id := "f", title := "t", process_status := ProcessStatus.FAILED,
     process_stage := some "fetch", process_error := some "e" },
   { id := "w4", feed_id := "f", title := "t", process_status := ProcessStatus.DONE }]

/-- Store with one article stuck in `analyzing`. -/
def c1w_arts2 : List Article :=
  [{ id := "w5", feed_id := "f", title := "t",
     process_status := ProcessStatus.ANALYZING }]

/-- C1 witness: all four amended conjuncts applied at concrete inputs. -/
theorem stage_invariant_amended_witness :
    (process_one c1w_env2 c1w_fetchfail {} []).1.process_status = ProcessStatus.FAILED ∧
    stage_consistent (process_one c1w_env c1w_ok {} []).1 ∧
    stage_consistent ((reset_failed_to_pending c1w_arts).1.get ⟨0, by decide⟩) ∧
    stage_consistent ((reset_stuck_states c1w_arts2).1.get ⟨0, by decide⟩) := by
  refine ⟨stage_invariant_amended.1 c1w_env2 c1w_fetchfail {} [] (by decide) (by decide),
          stage_invariant_amended.2.1 c1w_env c1w_ok {} [] ⟨?_, ?_⟩ (by decide),
          stage_invariant_amended.2.2.1 c1w_arts (by decide) _ (by decide),
          stage_invariant_amended.2.2.2 c1w_arts2 (by decide) _ (by decide)⟩
  · intro url msg hu
    exact Option.noConfusion hu
  · intro msg h
    exact AnalysisOutcome.noConfusion h

/-! ## Batch and run-loop bookkeeping -/

/-- A finished article no longer matches the eligibility query. -/
theorem is_pending_done_failed (b : Article)
    (h : b.process_status = ProcessStatus.DONE ∨ b.process_status = ProcessStatus.FAILED) :
    is_pending b = false := by
  rw [Bool.eq_false_iff]
  intro ht
  rcases (is_pending_iff b).mp ht with h1 | h1 | h1 <;> rcases h with h2 | h2 <;>
    exact absurd (h1.symm.trans h2) (by decide)

/-- Pending count of a cons cell. -/
theorem count_pending_cons (a : Article) (l : List Article) :
    count_pending (a :: l) = (if is_pending a then 1 else 0) + count_pending l := by
  unfold count_pending
  rw [List.filter_cons]
  by_cases h : is_pending a = true
  · rw [if_pos h, if_pos h, List.length_cons]
    omega
  · rw [if_neg h, if_neg h]
    omega

/-- Counter and pending bookkeeping of one batch pass: the completed and
failed counters absorb exactly one unit per processed pending article, and
the number of still-pending articles drops by `min k (pending count)`. -/
theorem process_batch_spec (env : PipelineEnv) :
    ∀ (arts : List Article) (k : Nat) (p : ProcessProgress) (rows : List ArticleAnalysis),
      ((process_batch env k arts p rows).2.1.completed
          + (process_batch env k arts p rows).2.1.failed
          + count_pending (process_batch env k arts p rows).1
        = p.completed + p.failed + count_pending arts) ∧
      count_pending (process_batch env k arts p rows).1
        = count_pending arts - min k (count_pending arts) := by
  intro arts
  induction arts with
  | nil =>
    intro k p rows
    simp [process_batch, count_pending]
  | cons a rest ih =>
    intro k p rows
    match k with
    | 0 =>
      simp [process_batch]
    | k + 1 =>
      by_cases hpa : is_pending a = true
      · rcases hp1 : process_one env a p rows with ⟨a1, p1, rows1⟩
        rcases hp2 : process_batch env k rest p1 rows1 with ⟨rest1, p2, rows2⟩
        have hstep : process_batch env (k + 1) (a :: rest) p rows = (a1 :: rest1, p2, rows2) := by
          simp only [process_batch, hpa, if_true]
          rw [hp1, hp2]
        have hcases := process_one_cases env a p rows
        rw [hp1] at hcases
        dsimp only at hcases
        have hmain : (a1.process_status = ProcessStatus.DONE ∨
            a1.process_status = ProcessStatus.FAILED) ∧
            p1.completed + p1.failed = p.completed + p.failed + 1 := by
          rcases hcases with ⟨h1, -, h2, -⟩ | ⟨h1, -, h2⟩ | ⟨h1, -, -, h2⟩ | h4
          · exact ⟨Or.inr h1, h2⟩
          · exact ⟨Or.inr h1, h2⟩
          · exact ⟨Or.inl h1, h2⟩
          · rw [hpa] at h4
            cases h4
        have hnp : is_pending a1 = false := is_pending_done_failed a1 hmain.1
        obtain ⟨ihsum, ihcount⟩ := ih k p1 rows1
        rw [hp2] at ihsum ihcount
        dsimp only at ihsum ihcount
        rw [hstep]
        dsimp only
        rw [count_pending_cons a1 rest1, count_pending_cons a rest, hnp, hpa]
        constructor
        · simp only [if_false, if_true, Bool.false_eq_true]
          omega
        · simp only [if_false, if_true, Bool.false_eq_true]
          omega
      · rcases hp2 : process_batch env (k + 1) rest p rows with ⟨rest1, p2, rows2⟩
        have hfalse : is_pending a = false := eq_false_of_ne_true hpa
        have hstep : process_batch env (k + 1) (a :: rest) p rows = (a :: rest1, p2, rows2) := by
          simp only [process_batch, hfalse, Bool.false_eq_true, if_false]
          rw [hp2]
        obtain ⟨ihsum, ihcount⟩ := ih (k + 1) p rows
        rw [hp2] at ihsum ihcount
        dsimp only at ihsum ihcount
        rw [hstep]
        dsimp only
        rw [count_pending_cons a rest1, count_pending_cons a rest, hfalse]
        constructor
        · simp only [Bool.false_eq_true, if_false]
          omega
        · simp only [Bool.false_eq_true, if_false]
          omega

/-- An immediate control exit: with the running flag down or the paused flag
up, the loop performs no work and reports a control exit. -/
theorem run_loop_ctrl (env : PipelineEnv) (bs : Nat) (running paused : Bool)
    (fuel : Nat) (arts : List Article) (p : ProcessProgress) (rows : List ArticleAnalysis)
    (h : running = false ∨ paused = true) :
    run_loop env bs running paused (fuel + 1) arts p rows = some (arts, p, rows, .ctrl) := by
  rcases h with h | h <;> subst h <;> simp [run_loop]

/-- Conservation of the progress counters through the whole loop: however
the loop exits, completed+failed grows by exactly the number of articles
that ceased to be pending — the counters are never reset between batches. -/
theorem run_loop_counters (env : PipelineEnv) (bs : Nat) (running paused : Bool) :
    ∀ (fuel : Nat) (arts : List Article) (p : ProcessProgress) (rows : List ArticleAnalysis)
      arts1 p1 rows1 reason,
      run_loop env bs running paused fuel arts p rows = some (arts1, p1, rows1, reason) →
      p1.completed + p1.failed + count_pending arts1
        = p.completed + p.failed + count_pending arts := by
  intro fuel
  induction fuel with
  | zero =>
    intro arts p rows arts1 p1 rows1 reason h
    exact Option.noConfusion h
  | succ f ih =>
    intro arts p rows arts1 p1 rows1 reason h
    rw [run_loop] at h
    by_cases hflag : (!running || paused) = true
    · rw [if_pos hflag] at h
      simp only [Option.some.injEq, Prod.mk.injEq] at h
      obtain ⟨h1, h2, h3, -⟩ := h
      subst h1
      subst h2
      rfl
    · rw [if_neg hflag] at h
      by_cases hemp : get_pending_articles arts bs = []
      · rw [if_pos hemp] at h
        simp only [Option.some.injEq, Prod.mk.injEq] at h
        obtain ⟨h1, h2, h3, -⟩ := h
        subst h1
        subst h2
        rfl
      · rw [if_neg hemp] at h
        rcases hpb : process_batch env bs arts p rows with ⟨artsb, pb, rowsb⟩
        rw [hpb] at h
        obtain ⟨hsum, -⟩ := process_batch_spec env arts bs p rows
        rw [hpb] at hsum
        dsimp only at hsum h
        have := ih artsb pb rowsb arts1 p1 rows1 reason h
        omega

/-- With the flags up, enough fuel drains the queue: the loop exits on an
empty batch with no article left pending. -/
theorem run_loop_drains (env : PipelineEnv) (bs : Nat) (hbs : 1 ≤ bs) :
    ∀ (fuel : Nat) (arts : List Article) (p : ProcessProgress) (rows : List ArticleAnalysis),
      count_pending arts < fuel →
      ∃ arts1 p1 rows1,
        run_loop env bs true false fuel arts p rows = some (arts1, p1, rows1, .emptyBatch) ∧
        ∀ b ∈ arts1, is_pending b = false := by
  intro fuel
  induction fuel with
  | zero =>
    intro arts p rows hf
    omega
  | succ f ih =>
    intro arts p rows hf
    rw [run_loop]
    simp only [Bool.not_true, Bool.false_or, Bool.false_eq_true, if_false]
    by_cases hemp : get_pending_articles arts bs = []
    · rw [if_pos hemp]
      refine ⟨arts, p, rows, rfl, ?_⟩
      have hfilter : arts.filter is_pending = [] := by
        unfold get_pending_articles at hemp
        rcases List.take_eq_nil_iff.mp hemp with h | h
        · omega
        · exact h
      intro b hb
      by_contra hbt
      have hmem : b ∈ arts.filter is_pending :=
        List.mem_filter.mpr ⟨hb, Bool.not_eq_false _ ▸ hbt⟩
      rw [hfilter] at hmem
      cases hmem
    · rw [if_neg hemp]
      rcases hpb : process_batch env bs arts p rows with ⟨artsb, pb, rowsb⟩
      obtain ⟨-, hcount⟩ := process_batch_spec env arts bs p rows
      rw [hpb] at hcount
      dsimp only at hcount
      have hpos : 0 < count_pending arts := by
        by_contra h0
        apply hemp
        unfold get_pending_articles
        have hlen : (arts.filter is_pending).length = 0 := by
          unfold count_pending at h0
          omega
        rw [List.length_eq_zero.mp hlen, List.take_nil]
      have hmin : 1 ≤ min bs (count_pending arts) := le_min hbs hpos
      have hlt : count_pending artsb < f := by
        rw [hcount]
        have hsub := Nat.sub_lt hpos (lt_of_lt_of_le Nat.zero_lt_one hmin)
        omega
      obtain ⟨arts1, p1, rows1, heq, hall⟩ := ih artsb pb rowsb hlt
      exact ⟨arts1, p1, rows1, heq, hall⟩

/-! ## Claim C2 -/

/-- Congruence for `_should_fetch`: it depends only on the title, the extracted text and the
feed policy. -/
theorem should_fetch_congr (a b : Article) (f : Option Feed)
    (ht : b.title = a.title) (hc : b.content_text = a.content_text) :
    should_fetch b f = should_fetch a f := by
  unfold should_fetch
  cases f <;> simp [ht, hc]

/-- C2: exceptions are caught at the per-article boundary — an exception
escaping the fetch step or the analysis step leaves that article failed with
the raw message recorded, and the run loop is unaffected: with the control
flags up it always exits on an empty batch with every article processed out
of the pending set (never because an item errored), and it exits early only
when stop or pause is requested. -/
theorem engine_error_containment :
    (∀ (env : PipelineEnv) (a : Article) (p : ProcessProgress) (rows : List ArticleAnalysis)
       (url msg : String),
       a.url = some url → env.fetch url = .exn msg →
       (a.process_status = ProcessStatus.SYNCED ∨
        a.process_status = ProcessStatus.PENDING_FETCH) →
       should_fetch a (env.feeds a.feed_id) = true →
       (process_one env a p rows).1.process_status = ProcessStatus.FAILED ∧
       (process_one env a p rows).1.process_error = some msg) ∧
    (∀ (env : PipelineEnv) (a : Article) (p : ProcessProgress) (rows : List ArticleAnalysis)
       (msg : String),
       a.process_status = ProcessStatus.PENDING_ANALYSIS →
       env.analysis a.id = .exn msg →
       pyOrSO a.full_content (pyOrSO a.content_text "") ≠ "" →
       (process_one env a p rows).1.process_status = ProcessStatus.FAILED ∧
       (process_one env a p rows).1.process_error = some msg) ∧
    (∀ (env : PipelineEnv) (bs : Nat) (arts : List Article) (p : ProcessProgress)
       (rows : List ArticleAnalysis), 1 ≤ bs →
       ∃ arts1 p1 rows1,
         run_loop env bs true false (count_pending arts + 1) arts p rows =
           some (arts1, p1, rows1, ExitReason.emptyBatch) ∧
         ∀ b ∈ arts1, is_pending b = false) ∧
    (∀ (env : PipelineEnv) (bs fuel : Nat) (arts : List Article) (p : ProcessProgress)
       (rows : List ArticleAnalysis) (running paused : Bool),
       running = false ∨ paused = true →
       run_loop env bs running paused (fuel + 1) arts p rows =
         some (arts, p, rows, ExitReason.ctrl)) := by
  refine ⟨?_, ?_, ?_, ?_⟩
  · intro env a p rows url msg hu hf hst hsf
    have hm : a.process_status ∈ [ProcessStatus.SYNCED, ProcessStatus.PENDING_FETCH] := by
      rcases hst with h | h <;> simp [h]
    have hsf' : should_fetch
        { a with url := some url, process_status := ProcessStatus.FETCHING }
        (env.feeds a.feed_id) = true := by
      rw [should_fetch_congr a
        { a with url := some url, process_status := ProcessStatus.FETCHING }
        (env.feeds a.feed_id) rfl rfl]
      exact hsf
    have hdf : do_fetch env a { p with current_article := some (a.title.take 50) } =
        .error (msg, { a with url := some url, process_status := ProcessStatus.FETCHING },
          { p with current_article := some (a.title.take 50),
                   current_stage := some "fetch" }) := by
      simp only [do_fetch, hu, hsf', Bool.not_true, Bool.false_eq_true, if_false, hf]
    simp only [process_one]
    rw [if_pos hm, hdf]
    exact ⟨rfl, rfl⟩
  · intro env a p rows msg hpa he hcc
    have hm : ¬ (a.process_status ∈ [ProcessStatus.SYNCED, ProcessStatus.PENDING_FETCH]) := by
      intro hmem
      rw [List.mem_cons, List.mem_singleton] at hmem
      rcases hmem with h | h <;> rw [hpa] at h <;> exact absurd h (by decide)
    have hda : do_analysis env a { p with current_article := some (a.title.take 50) } rows =
        .error (msg, { a with process_status := ProcessStatus.ANALYZING },
          { p with current_article := some (a.title.take 50),
                   current_stage := some "analysis" }, rows) := by
      simp only [do_analysis]
      rw [if_neg hcc, he]
    simp only [process_one]
    rw [if_neg hm]
    dsimp only
    rw [if_pos hpa, hda]
    exact ⟨rfl, rfl⟩
  · intro env bs arts p rows hbs
    exact run_loop_drains env bs hbs (count_pending arts + 1) arts p rows (by omega)
  · intro env bs fuel arts p rows running paused h
    exact run_loop_ctrl env bs running paused fuel arts p rows h

/-- Synced article whose fetch raises, for the C2 witness. -/
def c2w_article : Article :=
  { id := "c2a", feed_id := "f", title := "t", url := some "u",
    process_status := ProcessStatus.SYNCED }

/-- Pending-analysis article with content whose analysis step raises. -/
def c2w_article2 : Article :=
  { id := "c2b", feed_id := "f", title := "t", content_text := some "body",
    process_status := ProcessStatus.PENDING_ANALYSIS }

/-- Environment whose both stages raise. -/
def c2w_env : PipelineEnv :=
  { fetch := fun _ => .exn "boom", analysis := fun _ => .exn "bust",
    feeds := fun _ => none }

/-- C2 witness: the raising fetch and analysis are contained per-article,
the full loop drains the store anyway, and dropped flags exit with a control
reason. -/
theorem engine_error_containment_witness :
    ((process_one c2w_env c2w_article {} []).1.process_status = ProcessStatus.FAILED ∧
     (process_one c2w_env c2w_article {} []).1.process_error = some "boom") ∧
    ((process_one c2w_env c2w_article2 {} []).1.process_status = ProcessStatus.FAILED ∧
     (process_one c2w_env c2w_article2 {} []).1.process_error = some "bust") ∧
    (∃ arts1 p1 rows1,
      run_loop c2w_env 50 true false (count_pending [c2w_article] + 1) [c2w_article] {} [] =
        some (arts1, p1, rows1, ExitReason.emptyBatch) ∧
      ∀ b ∈ arts1, is_pending b = false) ∧
    run_loop c2w_env 50 false false 1 [c2w_article] {} [] =
      some ([c2w_article], {}, [], ExitReason.ctrl) := by
  refine ⟨engine_error_containment.1 c2w_env c2w_article {} [] "u" "boom" rfl rfl
            (Or.inl rfl) (by decide),
          engine_error_containment.2.1 c2w_env c2w_article2 {} [] "bust" rfl rfl (by decide),
          engine_error_containment.2.2.1 c2w_env 50 [c2w_article] {} [] (by omega),
          engine_error_containment.2.2.2 c2w_env 50 0 [c2w_article] {} [] false false
            (Or.inl rfl)⟩

/-! ## Claim C5 -/

/-- Environment for the C5 state evaluations (never consulted on an empty
store). -/
def c5_env : PipelineEnv :=
  { fetch := fun _ => .exn "x", analysis := fun _ => .exn "y", feeds := fun _ => none }

/-- C5 counterexample: a paused run is an active run (`_running` is still
true), yet the start endpoint consults `is_running = running ∧ ¬paused`, so
during a pause it proceeds to construct and schedule a fresh engine; and a
fresh engine's `start` does run — resetting the shared progress counters
(completed 7 / failed 2 wiped to 0) and beginning a second run. -/
theorem start_paused_counterexample :
    start_processing (some { running := true, paused := true }) = StartAction.startNewEngine ∧
    ProcessEngine.start { running := false, paused := false } c5_env 50 1 []
      { status := "paused", total := 3, completed := 7, failed := 2,
        current_article := none, current_stage := none } []
      = some ({ running := false, paused := false }, [],
          { status := "idle", total := 0, completed := 0, failed := 0,
            current_article := none, current_stage := none }, [], true) :=
  ⟨rfl, rfl⟩

/-- C5 amended: calling `ProcessEngine.start` on an engine whose `_running`
flag is up — including a paused run — is a no-op: it returns every piece of
state unchanged and executes no run loop; within a single run the
completed/failed counters accumulate across all batch iterations (they grow
exactly with the processed articles and are never reset per batch); but the
HTTP start endpoint rejects a new engine only when the registered engine is
running and not paused, so it does start a second run during a pause. -/
theorem start_running_noop_and_accumulation :
    (∀ (e : ProcessEngine) (env : PipelineEnv) (bs fuel : Nat) (arts : List Article)
       (p : ProcessProgress) (rows : List ArticleAnalysis),
       e.running = true →
       ProcessEngine.start e env bs fuel arts p rows = some (e, arts, p, rows, false)) ∧
    (∀ (env : PipelineEnv) (bs : Nat) (running paused : Bool) (fuel : Nat)
       (arts : List Article) (p : ProcessProgress) (rows : List ArticleAnalysis)
       arts1 p1 rows1 reason,
       run_loop env bs running paused fuel arts p rows = some (arts1, p1, rows1, reason) →
       p1.completed + p1.failed + count_pending arts1
         = p.completed + p.failed + count_pending arts) ∧
    (∀ e : ProcessEngine, start_processing (some e) = StartAction.alreadyRunning ↔
       (e.running = true ∧ e.paused = false)) := by
  refine ⟨?_, ?_, ?_⟩
  · intro e env bs fuel arts p rows h
    simp [ProcessEngine.start, h]
  · intro env bs running paused fuel arts p rows arts1 p1 rows1 reason h
    exact run_loop_counters env bs running paused fuel arts p rows arts1 p1 rows1 reason h
  · intro e
    rcases e with ⟨r, z⟩
    cases r <;> cases z <;> simp [start_processing, ProcessEngine.is_running]

/-- C5 witness: the paused-but-running engine's own `start` is a no-op, the
counter-conservation equation holds on a concrete drained run, and the
endpoint's guard is exactly `running ∧ ¬paused`. -/
theorem start_running_noop_witness :
    ProcessEngine.start { running := true, paused := true } c5_env 50 5 [] {} [] =
      some ({ running := true, paused := true }, [], {}, [], false) ∧
    (({} : ProcessProgress).completed + ({} : ProcessProgress).failed + count_pending [] =
      ({} : ProcessProgress).completed + ({} : ProcessProgress).failed + count_pending []) ∧
    start_processing (some { running := true, paused := false }) = StartAction.alreadyRunning := by
  refine ⟨start_running_noop_and_accumulation.1 { running := true, paused := true }
            c5_env 50 5 [] {} [] rfl,
          start_running_noop_and_accumulation.2.1 c5_env 1 true false 1 [] {} [] [] {} []
            ExitReason.emptyBatch rfl,
          (start_running_noop_and_accumulation.2.2 { running := true, paused := false }).mpr
            ⟨rfl, rfl⟩⟩

end FeedWise
